import Mathlib

/-!
Verification of the ParaYield data indexer core against its natural-language
specification.  The TypeScript source is shallowly embedded: MongoDB
collections become `List Doc`, the day-bucket upsert becomes an explicit
replace-or-append over that list, the query layer's sort/dedup/limit pipeline
becomes pure list functions, and asynchronous control flow (`Promise.all`,
`Promise.allSettled`, thrown exceptions) becomes explicit `Except` values.
JavaScript numbers appearing in claims are modelled as `Int` (and as `Rat`
where a division occurs); timestamps are epoch milliseconds as `Int`.
-/

namespace ParaYield

/-- A stored protocol snapshot document (`BaseProtocolSnapshot` in
`shared/entities/protocol-snapshot.entity.ts`).  Metric fields are optional,
matching the nullable columns; `metadata` is not needed by any claim and is
omitted from the embedding. -/
structure Doc where
  protocol : String
  network : String
  poolType : String
  assetSymbol : String
  snapshotDate : Option String := none
  supplyApy : Option Int := none
  borrowApy : Option Int := none
  rewardApy : Option Int := none
  totalApy : Option Int := none
  tvlUsd : Option Int := none
  utilizationRate : Option Int := none
  dataTimestamp : Int
  crawledAt : Option Int := none
  updatedAt : Option Int := none
deriving DecidableEq, Repr

/-- Embeds `pad2` — the `String(x).padStart(2, '0')` steps inside `getUtcDateKey`
(`shared/utils/date.util.ts`). -/
def pad2 (n : Nat) : String :=
  if n < 10 then "0" ++ toString n else "" ++ toString n

/-- Embeds `getUtcDateKey` (`shared/utils/date.util.ts`): formats the current UTC
calendar date as `"YYYY-MM-DD"`.  The JS runtime's decomposition of `Date`
into UTC year / 1-based month / day is taken as the three arguments. -/
def getUtcDateKey (year month day : Nat) : String :=
  toString year ++ "-" ++ pad2 month ++ "-" ++ pad2 day

/-- MongoDB `findOneAndUpdate(filter, { $set: doc }, { upsert: true })`:
replace the first document matching the filter, or append the document when
no match exists. -/
def findOneAndUpdateUpsert (key : Doc → Bool) (doc : Doc) : List Doc → List Doc
  | [] => [doc]
  | d :: rest =>
    if key d then doc :: rest else d :: findOneAndUpdateUpsert key doc rest

/-- Embeds `BifrostService.upsertSnapshots`: stamps `snapshotDate = getUtcDateKey()`
and `updatedAt = now` on every snapshot, then upserts keyed on
`(network, poolType, assetSymbol, snapshotDate)`. -/
def bifrostUpsertSnapshots (dateKey : String) (now : Int)
    (snapshots : List Doc) (store : List Doc) : List Doc :=
  snapshots.foldl
    (fun st snapshot =>
      let s : Doc := { snapshot with snapshotDate := some dateKey, updatedAt := some now }
      findOneAndUpdateUpsert
        (fun d =>
          d.network == s.network && d.poolType == s.poolType &&
          d.assetSymbol == s.assetSymbol && d.snapshotDate == some dateKey)
        s st)
    store

/-- Embeds `MoonwellService.upsertSnapshots` — textually the same day-bucketed upsert
as the Bifrost one. -/
def moonwellUpsertSnapshots (dateKey : String) (now : Int)
    (snapshots : List Doc) (store : List Doc) : List Doc :=
  snapshots.foldl
    (fun st snapshot =>
      let s : Doc := { snapshot with snapshotDate := some dateKey, updatedAt := some now }
      findOneAndUpdateUpsert
        (fun d =>
          d.network == s.network && d.poolType == s.poolType &&
          d.assetSymbol == s.assetSymbol && d.snapshotDate == some dateKey)
        s st)
    store

/-- Embeds `HydrationService.upsertSnapshots`: upserts keyed on
`(network, poolType, assetSymbol, dataTimestamp)` — it does **not** stamp
`snapshotDate` or `updatedAt` and does not key on the day bucket. -/
def hydrationUpsertSnapshots (snapshots : List Doc) (store : List Doc) : List Doc :=
  snapshots.foldl
    (fun st snapshot =>
      findOneAndUpdateUpsert
        (fun d =>
          d.network == snapshot.network && d.poolType == snapshot.poolType &&
          d.assetSymbol == snapshot.assetSymbol && d.dataTimestamp == snapshot.dataTimestamp)
        snapshot st)
    store

/-! ## Query layer (`modules/pools/pools.service.ts`, `dto/pool-filter.dto.ts`) -/

/-- Embeds `SortBy` enum from `pool-filter.dto.ts`. -/
inductive SortBy where
  | totalApy
  | supplyApy
  | rewardApy
  | tvlUsd
  | crawledAt
deriving DecidableEq, Repr

/-- Embeds `PoolFilterDto`: the validated query filter.  `from`/`to` are renamed
`fromDate`/`toDate` (`from` is a Lean keyword). -/
structure PoolFilterDto where
  protocol : Option String := none
  asset : Option String := none
  poolType : Option String := none
  network : Option String := none
  minApy : Option Int := none
  limit : Option Nat := none
  sortBy : Option SortBy := none
  fromDate : Option Int := none
  toDate : Option Int := none
deriving DecidableEq, Repr

/-- The `@Min(1) @Max(200)` class-validator bounds on `PoolFilterDto.limit`
(a missing value is allowed and later defaulted to 50). -/
def limitOk : Option Nat → Bool
  | none => true
  | some n => decide (1 ≤ n) && decide (n ≤ 200)

/-- Embeds `filter.asset.toUpperCase()`. -/
def toUpperCase (s : String) : String := String.map Char.toUpper s

/-- The `where` object built by both `fetchLatestSnapshots` and
`fetchHistorySnapshots`: equality filters on `assetSymbol` (upper-cased),
`poolType`, `network`, and a `$gte` threshold on `totalApy` (a document
without `totalApy` does not satisfy `$gte`). -/
def matchesWhere (f : PoolFilterDto) (d : Doc) : Bool :=
  (match f.asset with
   | none => true
   | some a => d.assetSymbol == toUpperCase a) &&
  (match f.poolType with
   | none => true
   | some p => d.poolType == p) &&
  (match f.network with
   | none => true
   | some n => d.network == n) &&
  (match f.minApy with
   | none => true
   | some m => match d.totalApy with
     | none => false
     | some v => decide (m ≤ v))

/-- The extra `dataTimestamp: { $gte: from, $lte: to }` range clause of
`fetchHistorySnapshots`, on top of the shared `where` filters. -/
def matchesHistory (f : PoolFilterDto) (d : Doc) : Bool :=
  matchesWhere f d &&
  (match f.fromDate with
   | none => true
   | some a => decide (a ≤ d.dataTimestamp)) &&
  (match f.toDate with
   | none => true
   | some b => decide (d.dataTimestamp ≤ b))

/-- Embeds the `dataTimestamp DESC` ordering comparator. -/
def tsDesc (a b : Doc) : Prop := b.dataTimestamp ≤ a.dataTimestamp

instance : DecidableRel tsDesc := fun a b => Int.decLe _ _

instance : IsTotal Doc tsDesc := ⟨fun a b => le_total b.dataTimestamp a.dataTimestamp⟩

instance : IsTrans Doc tsDesc := ⟨fun _ _ _ h1 h2 => le_trans h2 h1⟩

/-- Embeds the `dataTimestamp ASC` ordering comparator. -/
def tsAsc (a b : Doc) : Prop := a.dataTimestamp ≤ b.dataTimestamp

instance : DecidableRel tsAsc := fun a b => Int.decLe _ _

instance : IsTotal Doc tsAsc := ⟨fun a b => le_total a.dataTimestamp b.dataTimestamp⟩

instance : IsTrans Doc tsAsc := ⟨fun _ _ _ h1 h2 => le_trans h1 h2⟩

/-- The JS `Map` key `` `${doc.protocol}:${doc.poolType}:${doc.assetSymbol}` ``
used for latest-per-key deduplication. -/
def latestKey (d : Doc) : String :=
  d.protocol ++ ":" ++ d.poolType ++ ":" ++ d.assetSymbol

/-- The keep-first-occurrence loop of `fetchLatestSnapshots`: iterate the
recency-sorted documents with a `seen` map, `seen.set(key, doc)` only when the
key is unseen; `[...seen.values()]` yields the first-seen document per key in
first-seen order.  `seen` carries the keys inserted so far. -/
def dedupFirstAux (seen : List String) : List Doc → List Doc
  | [] => []
  | d :: rest =>
    if latestKey d ∈ seen then dedupFirstAux seen rest
    else d :: dedupFirstAux (latestKey d :: seen) rest

/-- The whole dedup reduction, starting from an empty `seen` map. -/
def dedupFirst (docs : List Doc) : List Doc := dedupFirstAux [] docs

/-- The bounded read window of `fetchLatestSnapshots`: the filtered collection
sorted by `dataTimestamp DESC`, truncated by `take: 1500`. -/
def latestWindow (store : List Doc) (f : PoolFilterDto) : List Doc :=
  (List.insertionSort tsDesc (store.filter (matchesWhere f))).take 1500

/-- Embeds `PoolsService.fetchLatestSnapshots`: filter pushdown, sort by
`dataTimestamp DESC`, `take: 1500`, then latest-per-key dedup. -/
def fetchLatestSnapshots (store : List Doc) (f : PoolFilterDto) : List Doc :=
  dedupFirst (latestWindow store f)

/-- Embeds `PoolsService.fetchHistorySnapshots`: filter pushdown including the
`[from, to]` range on `dataTimestamp`, sorted ascending, no dedup, no limit. -/
def fetchHistorySnapshots (store : List Doc) (f : PoolFilterDto) : List Doc :=
  List.insertionSort tsAsc (store.filter (matchesHistory f))

/-- The unified `PoolSummary` response shape (the fields claims refer to;
metadata-derived fields are omitted).  Note it has no `crawledAt` field, so
sorting by `SortBy.crawledAt` reads `undefined` for every record. -/
structure PoolSummary where
  protocol : String
  network : String
  poolType : String
  assetSymbol : String
  snapshotDate : Option String := none
  supplyApy : Option Int := none
  borrowApy : Option Int := none
  rewardApy : Option Int := none
  totalApy : Option Int := none
  tvlUsd : Option Int := none
  utilizationRate : Option Int := none
  dataTimestamp : Int
  updatedAt : Option Int := none
deriving DecidableEq, Repr

/-- Embeds `PoolsService.toSummary`: project a stored document onto the response
shape. -/
def toSummary (d : Doc) : PoolSummary :=
  { protocol := d.protocol
    network := d.network
    poolType := d.poolType
    assetSymbol := d.assetSymbol
    snapshotDate := d.snapshotDate
    supplyApy := d.supplyApy
    borrowApy := d.borrowApy
    rewardApy := d.rewardApy
    totalApy := d.totalApy
    tvlUsd := d.tvlUsd
    utilizationRate := d.utilizationRate
    dataTimestamp := d.dataTimestamp
    updatedAt := d.updatedAt }

/-- Embeds `(a as any)[sortField]` on a `PoolSummary`. -/
def sortFieldVal : SortBy → PoolSummary → Option Int
  | SortBy.totalApy, p => p.totalApy
  | SortBy.supplyApy, p => p.supplyApy
  | SortBy.rewardApy, p => p.rewardApy
  | SortBy.tvlUsd, p => p.tvlUsd
  | SortBy.crawledAt, _ => none

/-- The order induced by the comparator `(b[f] ?? -Infinity) - (a[f] ?? -Infinity)`
on the extended number line: a missing value is `-Infinity`, i.e. below every
present value. -/
def optLe : Option Int → Option Int → Bool
  | none, _ => true
  | some _, none => false
  | some a, some b => decide (a ≤ b)

/-- Descending comparator of `applySortAndLimit` for a given sort field. -/
def keyDesc (s : SortBy) (a b : PoolSummary) : Prop :=
  optLe (sortFieldVal s b) (sortFieldVal s a) = true

instance (s : SortBy) : DecidableRel (keyDesc s) := fun _ _ => by
  unfold keyDesc; infer_instance

theorem optLe_total (x y : Option Int) : optLe x y = true ∨ optLe y x = true := by
  cases x <;> cases y <;> simp [optLe] <;> omega

theorem optLe_trans {x y z : Option Int} (h1 : optLe x y = true)
    (h2 : optLe y z = true) : optLe x z = true := by
  cases x <;> cases y <;> cases z <;> simp_all [optLe] <;> omega

instance (s : SortBy) : IsTotal PoolSummary (keyDesc s) :=
  ⟨fun a b => optLe_total (sortFieldVal s b) (sortFieldVal s a)⟩

instance (s : SortBy) : IsTrans PoolSummary (keyDesc s) :=
  ⟨fun _ _ _ h1 h2 => optLe_trans h2 h1⟩

/-- Embeds `PoolsService.applySortAndLimit`: stable sort descending by the selected
field (default `totalApy`, missing values lowest), then
`slice(0, filter.limit ?? 50)`. -/
def applySortAndLimit (pools : List PoolSummary) (f : PoolFilterDto) : List PoolSummary :=
  let s := f.sortBy.getD SortBy.totalApy
  (List.insertionSort (keyDesc s) pools).take (f.limit.getD 50)

/-- The three per-protocol MongoDB collections injected into `PoolsService`. -/
structure Stores where
  bifrost : List Doc
  moonwell : List Doc
  hydration : List Doc
deriving DecidableEq, Repr

/-- Embeds `PoolsService.selectSources`: all three collections, or the single one
named by the `protocol` filter (unknown names fall back to all). -/
def selectSources (protocol : Option String) (st : Stores) : List (List Doc) :=
  match protocol with
  | none => [st.bifrost, st.moonwell, st.hydration]
  | some p =>
    if p == "bifrost" then [st.bifrost]
    else if p == "moonwell" then [st.moonwell]
    else if p == "hydration" then [st.hydration]
    else [st.bifrost, st.moonwell, st.hydration]

/-- Embeds `PoolsService.getAllPools` — the `latest()` read path: per-collection
latest-per-key fetch, concatenation, then sort/limit. -/
def getAllPools (st : Stores) (f : PoolFilterDto) : List PoolSummary :=
  applySortAndLimit
    (((selectSources f.protocol st).map fun repo =>
        (fetchLatestSnapshots repo f).map toSummary).flatten)
    f

/-- Ascending comparator `a.dataTimestamp.getTime() - b.dataTimestamp.getTime()`
of `getPoolsHistory`'s final sort. -/
def tsAscS (a b : PoolSummary) : Prop := a.dataTimestamp ≤ b.dataTimestamp

instance : DecidableRel tsAscS := fun a b => Int.decLe _ _

instance : IsTotal PoolSummary tsAscS := ⟨fun a b => le_total a.dataTimestamp b.dataTimestamp⟩

instance : IsTrans PoolSummary tsAscS := ⟨fun _ _ _ h1 h2 => le_trans h1 h2⟩

/-- Embeds `PoolsService.getPoolsHistory` — the `history()` read path: per-collection
range query, concatenation, chronological ascending sort; no dedup, no limit. -/
def getPoolsHistory (st : Stores) (f : PoolFilterDto) : List PoolSummary :=
  List.insertionSort tsAscS
    (((selectSources f.protocol st).map fun repo =>
        (fetchHistorySnapshots repo f).map toSummary).flatten)

/-! ## Activity log and ingestion runs
(`shared/services/activity-log.service.ts`, `modules/*/(bifrost|moonwell|hydration).service.ts`) -/

/-- Embeds `CrawlActivity` — the `ActivityRecord` reported to the activity sink
(persisted as one `CrawlLog` document per call to `record`). -/
structure CrawlActivity where
  protocol : String
  network : String
  poolType : String
  itemsFound : Nat
  durationMs : Int
  success : Bool
  errorMessage : Option String := none
deriving DecidableEq, Repr

/-- Embeds `ActivityLogService.recordSuccess`: one success record with the run's item
count and duration. -/
def recordSuccess (protocol network poolType : String)
    (itemsFound : Nat) (durationMs : Int) : CrawlActivity :=
  { protocol := protocol, network := network, poolType := poolType
    itemsFound := itemsFound, durationMs := durationMs
    success := true, errorMessage := none }

/-- Embeds `ActivityLogService.recordFailure`: one failure record with
`itemsFound = 0` and the captured error message.  (No protocol service ever
calls this function.) -/
def recordFailure (protocol network poolType : String)
    (durationMs : Int) (error : String) : CrawlActivity :=
  { protocol := protocol, network := network, poolType := poolType
    itemsFound := 0, durationMs := durationMs
    success := false, errorMessage := some error }

/-- The standard `CrawlResult` shape returned by every crawler's `crawl()`. -/
structure CrawlResultE where
  protocol : String
  network : String
  poolType : String
  duration : Int
  itemsFound : Nat
  data : List Doc
deriving DecidableEq, Repr

/-- Embeds `BifrostService.crawlVStaking`, given the `crawl()` outcome (`Except`
models a thrown rejection): persists via the day-bucket upsert and calls
`recordSuccess`; a thrown crawl propagates before any activity reporting —
there is no `try`/`catch` and `recordFailure` is never reached.  Returns the
crawl outcome, the updated store, and the activity records emitted. -/
def crawlVStakingRun (crawlOutcome : Except String CrawlResultE)
    (store : List Doc) (dateKey : String) (now : Int) :
    Except String CrawlResultE × List Doc × List CrawlActivity :=
  match crawlOutcome with
  | Except.error e => (Except.error e, store, [])
  | Except.ok r =>
    let store' := if r.data.length > 0 then bifrostUpsertSnapshots dateKey now r.data store else store
    (Except.ok r, store',
      [recordSuccess "bifrost" r.network "vstaking" r.itemsFound r.duration])

/-- The activity records emitted by one `crawlX` service method for a given
crawl outcome: exactly one success record on success, none on a thrown crawl
(shared shape of `crawlVStaking`/`crawlFarming`/`crawlMarkets`/`crawlPools`). -/
def serviceActivities (protocol poolType : String) :
    Except String CrawlResultE → List CrawlActivity
  | Except.error _ => []
  | Except.ok r => [recordSuccess protocol r.network poolType r.itemsFound r.duration]

/-! ## Scheduler (`modules/scheduler/snapshot-scheduler.service.ts`) -/

/-- The settled state of a promise under `Promise.allSettled`. -/
inductive SettledStatus where
  | fulfilled
  | rejected
deriving DecidableEq, Repr

/-- How `Promise.allSettled` classifies one task's outcome. -/
def settleOne {α : Type} : Except String α → SettledStatus
  | Except.ok _ => SettledStatus.fulfilled
  | Except.error _ => SettledStatus.rejected

/-- Embeds `Promise.all` over the two Bifrost sub-crawls inside
`BifrostService.crawlAll`: both promises run to completion, the combined
promise rejects if either rejects. -/
def promiseAll2 {α β : Type} : Except String α → Except String β → Except String (α × β)
  | Except.ok x, Except.ok y => Except.ok (x, y)
  | Except.error e, _ => Except.error e
  | Except.ok _, Except.error e => Except.error e

/-- Embeds `BifrostService.crawlAll`: `Promise.all([crawlVStaking(), crawlFarming()])`.
Each sub-crawl independently reports its own success record (both promises
execute even when the other rejects); the combined result rejects if either
sub-crawl threw. -/
def bifrostCrawlAllRun (ov of : Except String CrawlResultE) :
    Except String (CrawlResultE × CrawlResultE) × List CrawlActivity :=
  (promiseAll2 ov of,
   serviceActivities "bifrost" "vstaking" ov ++ serviceActivities "bifrost" "farming" of)

/-- Embeds `MoonwellService.crawlMarkets` outcome and activity records. -/
def moonwellCrawlMarketsRun (om : Except String CrawlResultE) :
    Except String CrawlResultE × List CrawlActivity :=
  (om, serviceActivities "moonwell" "lending" om)

/-- Embeds `HydrationService.crawlPools` outcome and activity records. -/
def hydrationCrawlPoolsRun (oh : Except String CrawlResultE) :
    Except String CrawlResultE × List CrawlActivity :=
  (oh, serviceActivities "hydration" "dex" oh)

/-- Embeds `SnapshotSchedulerService.runScheduledCrawl`: `Promise.allSettled` over the
three registered services (`crawlAll`, `crawlMarkets`, `crawlPools`), then one
labelled fulfilled/rejected summary entry per service.  Parameters are the
underlying crawl outcomes (vstaking, farming, moonwell, hydration). -/
def runScheduledCrawl (ov of om oh : Except String CrawlResultE) :
    List (String × SettledStatus) × List CrawlActivity :=
  let b := bifrostCrawlAllRun ov of
  let m := moonwellCrawlMarketsRun om
  let h := hydrationCrawlPoolsRun oh
  ([("Bifrost", settleOne b.1), ("Moonwell", settleOne m.1), ("Hydration", settleOne h.1)],
   b.2 ++ m.2 ++ h.2)

/-! ## Direct-fetch crawler
(`shared/crawlers/base-api.crawler.ts`, `modules/bifrost/crawlers/vstaking.crawler.ts`) -/

/-- One item of the Bifrost omni API's `result` array. -/
structure OmniItem where
  date : Int
  avg : Int
  week : Option Int := none
  month : Option Int := none
  quarter : Option Int := none
deriving DecidableEq, Repr

/-- The outcome of one `fetch(url)` for one token: the call threw, returned a
non-2xx response, or returned a JSON body whose `result` array may be absent. -/
inductive FetchOutcome where
  | fetchError (msg : String)
  | httpError (status : Nat)
  | ok (result : Option (List OmniItem))
deriving DecidableEq, Repr

/-- A token survives `fetchRaw`'s per-item handling exactly when its fetch
returned 2xx with a non-empty `result` array. -/
def goodOutcome : FetchOutcome → Bool
  | FetchOutcome.ok (some (_ :: _)) => true
  | _ => false

/-- What `fetchRaw` pushes per surviving token. -/
structure RawVStakingToken where
  token : String
  history : List OmniItem
deriving DecidableEq, Repr

/-- Comparator `(a, b) => a.date - b.date` sorting history ascending. -/
def dateAsc (a b : OmniItem) : Prop := a.date ≤ b.date

instance : DecidableRel dateAsc := fun a b => Int.decLe _ _

instance : IsTotal OmniItem dateAsc := ⟨fun a b => le_total a.date b.date⟩

instance : IsTrans OmniItem dateAsc := ⟨fun _ _ _ h1 h2 => le_trans h1 h2⟩

/-- Embeds `VStakingCrawler.fetchRaw` given the per-token fetch outcomes: a thrown
fetch is caught and logged, a non-2xx response hits `continue`, an absent or
empty `result` array is skipped — in every per-item failure case the loop
moves on to the next token.  Surviving tokens contribute their history sorted
ascending by date. -/
def vstakingFetchRaw (oracle : String → FetchOutcome) :
    List String → List RawVStakingToken
  | [] => []
  | t :: rest =>
    match oracle t with
    | FetchOutcome.ok (some l) =>
      if l.length > 0 then
        { token := t, history := List.insertionSort dateAsc l } :: vstakingFetchRaw oracle rest
      else
        vstakingFetchRaw oracle rest
    | _ => vstakingFetchRaw oracle rest

/-- Embeds `VStakingCrawler.toSnapshot`: reads `history[history.length - 1]` — a
`TypeError` is thrown (modelled as `Except.error`) if the history were empty. -/
def vstakingToSnapshot (now : Int) (raw : RawVStakingToken) : Except String Doc :=
  match raw.history.getLast? with
  | none => Except.error "TypeError: cannot read properties of undefined"
  | some latest =>
    Except.ok
      { protocol := "bifrost", network := "polkadot", poolType := "vstaking"
        assetSymbol := raw.token
        supplyApy := some latest.avg
        dataTimestamp := latest.date
        crawledAt := some now }

/-- Embeds `raw.map((item) => this.toSnapshot(item))`: the first thrown mapping
aborts and propagates. -/
def mapExcept {α β : Type} (g : α → Except String β) : List α → Except String (List β)
  | [] => Except.ok []
  | x :: xs =>
    match g x with
    | Except.error e => Except.error e
    | Except.ok y =>
      match mapExcept g xs with
      | Except.error e => Except.error e
      | Except.ok ys => Except.ok (y :: ys)

/-- Embeds `BaseApiCrawler.crawl` instantiated at the vStaking crawler.
`configTokens` is the outcome of `PoolConfigService.getTokens` — the only
call inside `fetchRaw` that can throw; the `catch` block rethrows whatever
`fetchRaw`/`map` threw.  Wall-clock duration is not modelled (0). -/
def vstakingCrawl (configTokens : Except String (List String))
    (oracle : String → FetchOutcome) (now : Int) : Except String CrawlResultE :=
  match configTokens with
  | Except.error e => Except.error e
  | Except.ok tokens =>
    match mapExcept (vstakingToSnapshot now) (vstakingFetchRaw oracle tokens) with
    | Except.error e => Except.error e
    | Except.ok data =>
      Except.ok
        { protocol := "bifrost", network := "polkadot", poolType := "vstaking"
          duration := 0, itemsFound := data.length, data := data }

/-! ## Browser-rendering crawler
(`shared/crawlers/base.crawler.ts` and
`modules/hydration/crawlers/omnipool.crawler.ts`) -/

/-- Observable trace of one `crawl()` call of a Playwright crawler: its
result, how many navigation-and-extraction attempts ran, the backoff delays
slept between attempts, and how many browsers were launched/closed (the
`finally` block closes the browser of every attempt). -/
structure RunTrace where
  result : Except String (List Doc)
  attempts : Nat
  delays : List Nat
  launched : Nat
  closed : Nat
deriving Repr

/-- The attempt loop of `BaseCrawler.crawl`:
`for (attempt = 1; attempt <= retries + 1; attempt++)` with
`sleep(retryDelayMs * attempt)` after a failed non-final attempt and the
browser closed in `finally` on every attempt.  `oracle k` is the outcome of
the k-th full navigation-and-extraction attempt; `remaining` counts the
attempts still allowed including the current one; after the loop the last
error is rethrown. -/
def baseCrawlGo (oracle : Nat → Except String (List Doc)) (delayMs : Nat) :
    Nat → Nat → String → RunTrace
  | _, 0, lastErr =>
    { result := Except.error lastErr, attempts := 0, delays := [], launched := 0, closed := 0 }
  | attempt, remaining + 1, _ =>
    match oracle attempt with
    | Except.ok items =>
      { result := Except.ok items, attempts := 1, delays := [], launched := 1, closed := 1 }
    | Except.error e =>
      let rest := baseCrawlGo oracle delayMs (attempt + 1) remaining e
      { result := rest.result
        attempts := rest.attempts + 1
        delays := (if remaining > 0 then [delayMs * attempt] else []) ++ rest.delays
        launched := rest.launched + 1
        closed := rest.closed + 1 }

/-- Embeds `BaseCrawler.crawl` with options `{ retries, retryDelayMs }`
(defaults `retries: 2`, `retryDelayMs: 2000`). -/
def baseCrawl (retries delayMs : Nat) (oracle : Nat → Except String (List Doc)) : RunTrace :=
  baseCrawlGo oracle delayMs 1 (retries + 1) ""

/-- Embeds `HydrationOmnipoolCrawler.crawl`: a single try/catch/finally around one
navigation-and-extraction sequence — no retry loop, no backoff; the browser is
closed in `finally` on both paths and the first failure is rethrown. -/
def hydrationCrawl (oracle : Nat → Except String (List Doc)) : RunTrace :=
  match oracle 1 with
  | Except.ok items =>
    { result := Except.ok items, attempts := 1, delays := [], launched := 1, closed := 1 }
  | Except.error e =>
    { result := Except.error e, attempts := 1, delays := [], launched := 1, closed := 1 }

/-! ## Moonwell normalization (`modules/moonwell/crawlers/markets.crawler.ts`) -/

/-- One row of Ponder's `marketDailySnapshots`. -/
structure PonderMarketDailySnapshot where
  chainId : Nat
  marketAddress : String
  totalSuppliesUSD : Rat
  totalBorrowsUSD : Rat
  totalLiquidityUSD : Rat
  baseSupplyApy : Rat
  baseBorrowApy : Rat
  timestamp : Int
deriving DecidableEq, Repr

/-- One row of Ponder's `markets`. -/
structure PonderMarket where
  address : String
  chainId : Nat
  underlyingTokenAddress : String
  collateralFactor : Rat
  reserveFactor : Rat
deriving DecidableEq, Repr

/-- One row of Ponder's `tokens`. -/
structure PonderToken where
  address : String
  chainId : Nat
  symbol : String
  name : String
deriving DecidableEq, Repr

/-- The in-memory join passed from `fetchRaw` to `toSnapshot`. -/
structure RawMoonwellMarket where
  market : PonderMarket
  token : Option PonderToken
  latestSnapshot : Option PonderMarketDailySnapshot
deriving DecidableEq, Repr

/-- Embeds `MOONWELL_CHAIN_NETWORK` lookup. -/
def moonwellChainNetwork (chainId : Nat) : Option String :=
  if chainId = 1284 then some "moonbeam"
  else if chainId = 8453 then some "base"
  else none

/-- The normalized Moonwell snapshot (metric fields kept as exact rationals
so the division is represented faithfully). -/
structure MoonwellSnapshotOut where
  protocol : String
  network : String
  poolType : String
  assetSymbol : String
  supplyApy : Option Rat := none
  borrowApy : Option Rat := none
  tvlUsd : Option Rat := none
  utilizationRate : Option Rat := none
  dataTimestamp : Int
deriving DecidableEq, Repr

/-- Embeds `MoonwellMarketsCrawler.toSnapshot`: APYs scaled to percentage points;
`utilizationRate` is `totalBorrowsUSD / totalSuppliesUSD` guarded by
`latestSnapshot && latestSnapshot.totalSuppliesUSD > 0`, else `undefined`. -/
def moonwellToSnapshot (now : Int) (raw : RawMoonwellMarket) : MoonwellSnapshotOut :=
  let network := (moonwellChainNetwork raw.market.chainId).getD
    ("chain-" ++ toString raw.market.chainId)
  let assetSymbol :=
    match raw.token with
    | some t => t.symbol
    | none => "unknown-" ++ raw.market.underlyingTokenAddress.take 8
  { protocol := "moonwell"
    network := network
    poolType := "lending"
    assetSymbol := assetSymbol
    supplyApy := raw.latestSnapshot.map fun s => s.baseSupplyApy * 100
    borrowApy := raw.latestSnapshot.map fun s => s.baseBorrowApy * 100
    tvlUsd := raw.latestSnapshot.map fun s => s.totalLiquidityUSD
    utilizationRate :=
      match raw.latestSnapshot with
      | some s =>
        if 0 < s.totalSuppliesUSD then some (s.totalBorrowsUSD / s.totalSuppliesUSD)
        else none
      | none => none
    dataTimestamp :=
      match raw.latestSnapshot with
      | some s => s.timestamp * 1000
      | none => now }

/-! ## Concrete fixtures -/

/-- First Bifrost vStaking run of the day (10:00 UTC, 2023-11-14). -/
def c1BifrostRun1 : Doc :=
  { protocol := "bifrost", network := "polkadot", poolType := "vstaking"
    assetSymbol := "vDOT", supplyApy := some 12, dataTimestamp := 1699956000000 }

/-- Second Bifrost vStaking run of the same UTC day, ten minutes later, with a
fresher reading. -/
def c1BifrostRun2 : Doc :=
  { protocol := "bifrost", network := "polkadot", poolType := "vstaking"
    assetSymbol := "vDOT", supplyApy := some 15, dataTimestamp := 1699956600000 }

/-- First Hydration run of the day for the `2-Pool` asset. -/
def c1HydrationRun1 : Doc :=
  { protocol := "hydration", network := "hydration", poolType := "dex"
    assetSymbol := "2-Pool", totalApy := some 12, dataTimestamp := 1699956000000 }

/-- Second Hydration run of the same UTC day, ten minutes later
(`dataTimestamp = new Date()` differs between runs). -/
def c1HydrationRun2 : Doc :=
  { protocol := "hydration", network := "hydration", poolType := "dex"
    assetSymbol := "2-Pool", totalApy := some 13, dataTimestamp := 1699956600000 }

/-- C1.  The day-bucket upsert invariant holds on the Bifrost/Moonwell path:
two same-UTC-day runs leave exactly one stored record, stamped with the day
bucket and carrying the second run's metric values.  It is violated by
`HydrationService.upsertSnapshots`, which keys on `dataTimestamp` and never
stamps `snapshotDate`: two runs within the same UTC day leave two stored
records for the same `(network, category, assetSymbol)` (and the same — never
written — day bucket), contradicting the entity's declared unique index
`(network, poolType, assetSymbol, snapshotDate)` and the scheduler's own
documentation. -/
theorem c1_day_bucket_upsert_eval :
    ((bifrostUpsertSnapshots (getUtcDateKey 2023 11 14) 1699956600000 [c1BifrostRun2]
        (bifrostUpsertSnapshots (getUtcDateKey 2023 11 14) 1699956000000 [c1BifrostRun1] [])).length = 1 ∧
     (bifrostUpsertSnapshots (getUtcDateKey 2023 11 14) 1699956600000 [c1BifrostRun2]
        (bifrostUpsertSnapshots (getUtcDateKey 2023 11 14) 1699956000000 [c1BifrostRun1] [])).map
          (fun d => (d.supplyApy, d.snapshotDate)) = [(some 15, some "2023-11-14")]) ∧
    ((hydrationUpsertSnapshots [c1HydrationRun2]
        (hydrationUpsertSnapshots [c1HydrationRun1] [])).filter
          (fun d => d.network == "hydration" && d.poolType == "dex" && d.assetSymbol == "2-Pool")).length = 2 ∧
    (hydrationUpsertSnapshots [c1HydrationRun2]
        (hydrationUpsertSnapshots [c1HydrationRun1] [])).map (fun d => d.snapshotDate) =
      [none, none] := by
  decide

/-- A successful vStaking crawl result. -/
def c2Result : CrawlResultE :=
  { protocol := "bifrost", network := "polkadot", poolType := "vstaking"
    duration := 1234, itemsFound := 2, data := [c1BifrostRun1, c1BifrostRun2] }

/-- C2.  A successful run reports exactly one success `ActivityRecord` with
the run's item count and duration, but a run whose crawl throws reports **no**
record at all: the services have no `try`/`catch` and `recordFailure` is
never called, so the claimed failure record (`itemsFound = 0`, captured error
message) is never produced. -/
theorem c2_activity_record_eval :
    (crawlVStakingRun (Except.error "fetch failed: ECONNRESET") []
        (getUtcDateKey 2023 11 14) 1699956000000).2.2 = [] ∧
    (crawlVStakingRun (Except.ok c2Result) [] (getUtcDateKey 2023 11 14) 1699956000000).2.2 =
      [recordSuccess "bifrost" "polkadot" "vstaking" 2 1234] := by
  decide

/-- Moonwell crawl result fixture. -/
def c6MoonwellResult : CrawlResultE :=
  { protocol := "moonwell", network := "moonbeam", poolType := "lending"
    duration := 800, itemsFound := 3, data := [] }

/-- Hydration crawl result fixture. -/
def c6HydrationResult : CrawlResultE :=
  { protocol := "hydration", network := "hydration", poolType := "dex"
    duration := 9000, itemsFound := 7, data := [] }

/-- C6.  Every scheduler tick produces exactly one labelled outcome per
registered service; `Promise.allSettled` isolates failures: when Bifrost's
`crawlAll` rejects, Moonwell's and Hydration's entries are still `fulfilled`
and their success activity records are still emitted; and each service's
summary entry is independent of the other services' outcomes. -/
theorem c6_scheduler_failure_isolation
    (ov of ov2 of2 om oh : Except String CrawlResultE)
    (rm rh : CrawlResultE) (e : String)
    (hm : om = Except.ok rm) (hh : oh = Except.ok rh) :
    ((runScheduledCrawl ov of om oh).1.map Prod.fst) = ["Bifrost", "Moonwell", "Hydration"] ∧
    (runScheduledCrawl (Except.error e) of2 om oh).1 =
      [("Bifrost", SettledStatus.rejected), ("Moonwell", SettledStatus.fulfilled),
       ("Hydration", SettledStatus.fulfilled)] ∧
    recordSuccess "moonwell" rm.network "lending" rm.itemsFound rm.duration ∈
      (runScheduledCrawl (Except.error e) of2 om oh).2 ∧
    recordSuccess "hydration" rh.network "dex" rh.itemsFound rh.duration ∈
      (runScheduledCrawl (Except.error e) of2 om oh).2 ∧
    (runScheduledCrawl ov of om oh).1.get? 1 = (runScheduledCrawl ov2 of2 om oh).1.get? 1 ∧
    (runScheduledCrawl ov of om oh).1.get? 2 = (runScheduledCrawl ov2 of2 om oh).1.get? 2 := by
  subst hm hh
  refine ⟨rfl, rfl, ?_, ?_, rfl, rfl⟩
  · simp [runScheduledCrawl, bifrostCrawlAllRun, moonwellCrawlMarketsRun,
      hydrationCrawlPoolsRun, serviceActivities]
  · simp [runScheduledCrawl, bifrostCrawlAllRun, moonwellCrawlMarketsRun,
      hydrationCrawlPoolsRun, serviceActivities]

/-- Witness for C6 at concrete inputs: Bifrost rejected, the other two
services fulfilled in the same tick. -/
theorem c6_scheduler_failure_isolation_witness :
    (runScheduledCrawl (Except.error "boom") (Except.ok c2Result)
        (Except.ok c6MoonwellResult) (Except.ok c6HydrationResult)).1 =
      [("Bifrost", SettledStatus.rejected), ("Moonwell", SettledStatus.fulfilled),
       ("Hydration", SettledStatus.fulfilled)] :=
  (c6_scheduler_failure_isolation (Except.error "boom") (Except.ok c2Result)
    (Except.error "boom") (Except.ok c2Result)
    (Except.ok c6MoonwellResult) (Except.ok c6HydrationResult)
    c6MoonwellResult c6HydrationResult "boom" rfl rfl).2.1

/-- C9.  Moonwell normalization computes `utilizationRatio` as
`totalBorrowsUSD / totalSuppliesUSD` exactly when a latest daily snapshot is
present and its total-supplied value is strictly positive; when the
denominator is non-positive or the snapshot is absent the field stays
undefined (no zero default, no division taken). -/
theorem c9_utilization_guard (raw : RawMoonwellMarket) (now : Int) :
    (∀ s, raw.latestSnapshot = some s →
      (0 < s.totalSuppliesUSD →
        (moonwellToSnapshot now raw).utilizationRate =
          some (s.totalBorrowsUSD / s.totalSuppliesUSD)) ∧
      (s.totalSuppliesUSD ≤ 0 →
        (moonwellToSnapshot now raw).utilizationRate = none)) ∧
    (raw.latestSnapshot = none → (moonwellToSnapshot now raw).utilizationRate = none) := by
  constructor
  · intro s hs
    constructor
    · intro hpos
      simp [moonwellToSnapshot, hs, if_pos hpos]
    · intro hnp
      simp [moonwellToSnapshot, hs, if_neg (not_lt.mpr hnp)]
  · intro h
    simp [moonwellToSnapshot, h]

/-- A concrete Ponder daily snapshot with positive supplies. -/
def c9Snap : PonderMarketDailySnapshot :=
  { chainId := 8453, marketAddress := "0xabc"
    totalSuppliesUSD := 200, totalBorrowsUSD := 50, totalLiquidityUSD := 150
    baseSupplyApy := 1 / 20, baseBorrowApy := 3 / 50, timestamp := 1699956000 }

/-- A concrete joined Moonwell market row with that snapshot attached. -/
def c9Raw : RawMoonwellMarket :=
  { market :=
      { address := "0xabc", chainId := 8453, underlyingTokenAddress := "0xdef"
        collateralFactor := 3 / 4, reserveFactor := 1 / 10 }
    token := some { address := "0xdef", chainId := 8453, symbol := "USDC", name := "USD Coin" }
    latestSnapshot := some c9Snap }

/-- Witness for C9: at the concrete market row the guard condition holds and
the ratio is computed. -/
theorem c9_utilization_guard_witness :
    (moonwellToSnapshot 0 c9Raw).utilizationRate =
      some (c9Snap.totalBorrowsUSD / c9Snap.totalSuppliesUSD) :=
  ((c9_utilization_guard c9Raw 0).1 c9Snap rfl).1 (by norm_num [c9Snap])

/-! ## C8: retry/backoff/release of the browser-rendering crawls -/

/-- An attempt oracle whose first navigation attempt times out and whose
second attempt would succeed. -/
def c8Oracle : Nat → Except String (List Doc)
  | 1 => Except.error "page.goto: Timeout 60000ms exceeded"
  | _ => Except.ok []

/-- Counterexample to C8 as stated: the Hydration omnipool crawler is a
browser-rendering crawl, yet a failed navigation-and-extraction attempt is
not retried — it makes exactly one attempt and propagates the first failure,
although the configured default retry budget (`retries: 2`, i.e. up to 3
attempts) would have recovered on the second attempt, as `BaseCrawler.crawl`
does on the same oracle. -/
theorem c8_counterexample :
    (hydrationCrawl c8Oracle).attempts = 1 ∧
    (hydrationCrawl c8Oracle).result = Except.error "page.goto: Timeout 60000ms exceeded" ∧
    (baseCrawl 2 2000 c8Oracle).result = Except.ok [] ∧
    (baseCrawl 2 2000 c8Oracle).attempts = 2 ∧
    (1 : Nat) < 2 + 1 :=
  ⟨rfl, rfl, rfl, rfl, by decide⟩

theorem baseCrawlGo_released (oracle : Nat → Except String (List Doc)) (delayMs : Nat) :
    ∀ remaining attempt lastErr,
      (baseCrawlGo oracle delayMs attempt remaining lastErr).launched =
        (baseCrawlGo oracle delayMs attempt remaining lastErr).closed ∧
      (baseCrawlGo oracle delayMs attempt remaining lastErr).attempts ≤ remaining := by
  intro remaining
  induction remaining with
  | zero =>
    intro attempt lastErr
    exact ⟨rfl, Nat.le_refl 0⟩
  | succ r ih =>
    intro attempt lastErr
    unfold baseCrawlGo
    cases h : oracle attempt with
    | ok items => exact ⟨rfl, Nat.succ_le_succ (Nat.zero_le r)⟩
    | error e =>
      simp only
      refine ⟨?_, ?_⟩
      · have := (ih (attempt + 1) e).1
        simp [this]
      · exact Nat.succ_le_succ (ih (attempt + 1) e).2

/-- Backoff delays `delayMs * attempt, delayMs * (attempt+1), ...` shift by one
attempt index when the loop recurses. -/
theorem baseCrawl_delays_cons (delayMs attempt k : Nat) :
    delayMs * attempt :: (List.range k).map (fun i => delayMs * (attempt + 1 + i)) =
      (List.range (k + 1)).map (fun i => delayMs * (attempt + i)) := by
  rw [List.range_succ_eq_map, List.map_cons, List.map_map]
  refine congrArg₂ List.cons (by rw [Nat.add_zero]) ?_
  apply List.map_congr_left
  intro i _
  simp only [Function.comp, Nat.succ_eq_add_one]
  ring

theorem baseCrawlGo_success (oracle : Nat → Except String (List Doc)) (delayMs : Nat) :
    ∀ k remaining attempt lastErr items,
      k < remaining →
      (∀ j, j < k → ∃ m, oracle (attempt + j) = Except.error m) →
      oracle (attempt + k) = Except.ok items →
      baseCrawlGo oracle delayMs attempt remaining lastErr =
        { result := Except.ok items, attempts := k + 1
          delays := (List.range k).map (fun i => delayMs * (attempt + i))
          launched := k + 1, closed := k + 1 } := by
  intro k
  induction k with
  | zero =>
    intro remaining attempt lastErr items hlt _ hok
    rw [Nat.add_zero] at hok
    obtain ⟨r, rfl⟩ := Nat.exists_eq_add_of_lt hlt
    unfold baseCrawlGo
    rw [hok]
    rfl
  | succ k ih =>
    intro remaining attempt lastErr items hlt hfail hok
    obtain ⟨m0, hm0⟩ := hfail 0 (Nat.succ_pos k)
    rw [Nat.add_zero] at hm0
    obtain ⟨r, rfl⟩ := Nat.exists_eq_add_of_lt hlt
    have hrec := ih (k + 1 + r) (attempt + 1) m0 items (by omega)
      (fun j hj => by
        obtain ⟨m, hm⟩ := hfail (j + 1) (Nat.succ_lt_succ hj)
        exact ⟨m, by rw [show attempt + 1 + j = attempt + (j + 1) by omega]; exact hm⟩)
      (by rw [show attempt + 1 + k = attempt + (k + 1) by omega]; exact hok)
    unfold baseCrawlGo
    rw [hm0]
    simp only
    rw [hrec, if_pos (by omega : k + 1 + r > 0), List.singleton_append,
      baseCrawl_delays_cons]

theorem baseCrawlGo_exhaust (oracle : Nat → Except String (List Doc)) (delayMs : Nat) :
    ∀ remaining attempt lastErr,
      (∀ j, j < remaining → ∃ m, oracle (attempt + j) = Except.error m) →
      (baseCrawlGo oracle delayMs attempt remaining lastErr).attempts = remaining ∧
      (baseCrawlGo oracle delayMs attempt remaining lastErr).delays =
        (List.range (remaining - 1)).map (fun i => delayMs * (attempt + i)) ∧
      (remaining = 0 →
        (baseCrawlGo oracle delayMs attempt remaining lastErr).result = Except.error lastErr) ∧
      (∀ m, 0 < remaining → oracle (attempt + remaining - 1) = Except.error m →
        (baseCrawlGo oracle delayMs attempt remaining lastErr).result = Except.error m) := by
  intro remaining
  induction remaining with
  | zero =>
    intro attempt lastErr _
    exact ⟨rfl, rfl, fun _ => rfl, fun _ h _ => absurd h (by omega)⟩
  | succ r ih =>
    intro attempt lastErr hfail
    obtain ⟨m0, hm0⟩ := hfail 0 (Nat.succ_pos r)
    rw [Nat.add_zero] at hm0
    have hrec := ih (attempt + 1) m0
      (fun j hj => by
        obtain ⟨m, hm⟩ := hfail (j + 1) (Nat.succ_lt_succ hj)
        exact ⟨m, by rw [show attempt + 1 + j = attempt + (j + 1) by omega]; exact hm⟩)
    unfold baseCrawlGo
    rw [hm0]
    simp only
    refine ⟨by rw [hrec.1], ?_, fun h => absurd h (by omega), ?_⟩
    · rcases Nat.eq_zero_or_pos r with hr | hr
      · subst hr
        rw [hrec.2.1]
        simp
      · rw [if_pos hr, List.singleton_append, hrec.2.1,
          show r + 1 - 1 = (r - 1) + 1 by omega, ← baseCrawl_delays_cons]
    · intro m hpos hm
      rcases Nat.eq_zero_or_pos r with hr | hr
      · subst hr
        rw [hrec.2.2.1 rfl]
        rw [show attempt + (0 + 1) - 1 = attempt by omega] at hm
        rw [hm0] at hm
        injection hm with h2
        rw [h2]
      · apply hrec.2.2.2 m hr
        rw [show attempt + 1 + r - 1 = attempt + (r + 1) - 1 by omega]
        exact hm

/-- C8 (amended).  `BaseCrawler.crawl` retries the whole
navigation-and-extraction sequence: at most `retries + 1` attempts run, a
success at attempt `k+1` after `k` failures returns that attempt's items
having slept the linearly increasing backoffs `delayMs*1, …, delayMs*k`, full
exhaustion propagates the final attempt's error after backoffs
`delayMs*1, …, delayMs*retries`, and the browser is closed once per launch on
every path.  `HydrationOmnipoolCrawler.crawl`, by contrast, performs exactly
one attempt — propagating the first failure without retry — while still
releasing its browser on every exit path. -/
theorem c8_amended_retry_backoff_release
    (retries delayMs : Nat) (oracle : Nat → Except String (List Doc))
    (items : List Doc) (k : Nat) (m : String) :
    ((baseCrawl retries delayMs oracle).launched = (baseCrawl retries delayMs oracle).closed) ∧
    ((baseCrawl retries delayMs oracle).attempts ≤ retries + 1) ∧
    (k ≤ retries →
      (∀ j, j < k → ∃ e, oracle (j + 1) = Except.error e) →
      oracle (k + 1) = Except.ok items →
      baseCrawl retries delayMs oracle =
        { result := Except.ok items, attempts := k + 1
          delays := (List.range k).map (fun i => delayMs * (1 + i))
          launched := k + 1, closed := k + 1 }) ∧
    ((∀ j, j ≤ retries → ∃ e, oracle (j + 1) = Except.error e) →
      (baseCrawl retries delayMs oracle).attempts = retries + 1 ∧
      (baseCrawl retries delayMs oracle).delays =
        (List.range retries).map (fun i => delayMs * (1 + i)) ∧
      (oracle (retries + 1) = Except.error m →
        (baseCrawl retries delayMs oracle).result = Except.error m)) ∧
    ((hydrationCrawl oracle).attempts = 1 ∧
     (hydrationCrawl oracle).launched = (hydrationCrawl oracle).closed ∧
     (oracle 1 = Except.ok items → (hydrationCrawl oracle).result = Except.ok items) ∧
     (oracle 1 = Except.error m → (hydrationCrawl oracle).result = Except.error m)) := by
  have hrel := baseCrawlGo_released oracle delayMs (retries + 1) 1 ""
  refine ⟨hrel.1, hrel.2, ?_, ?_, ?_⟩
  · intro hk hfail hok
    exact baseCrawlGo_success oracle delayMs k (retries + 1) 1 "" items
      (by omega)
      (fun j hj => by
        obtain ⟨e, he⟩ := hfail j hj
        exact ⟨e, by rw [Nat.add_comm 1 j]; exact he⟩)
      (by rw [Nat.add_comm 1 k]; exact hok)
  · intro hfail
    have hex := baseCrawlGo_exhaust oracle delayMs (retries + 1) 1 ""
      (fun j hj => by
        obtain ⟨e, he⟩ := hfail j (by omega)
        exact ⟨e, by rw [Nat.add_comm 1 j]; exact he⟩)
    refine ⟨hex.1, hex.2.1, ?_⟩
    intro hm
    apply hex.2.2.2 m (by omega)
    rw [show 1 + (retries + 1) - 1 = retries + 1 by omega]
    exact hm
  · refine ⟨?_, ?_, ?_, ?_⟩
    · cases h : oracle 1 <;> simp [hydrationCrawl, h]
    · cases h : oracle 1 <;> simp [hydrationCrawl, h]
    · intro h2
      simp [hydrationCrawl, h2]
    · intro h2
      simp [hydrationCrawl, h2]

/-- Witness for the amended C8: on the oracle whose first attempt fails,
`BaseCrawler.crawl` with the default options succeeds at attempt 2 after one
2000 ms backoff, launching and closing two browsers. -/
theorem c8_amended_retry_backoff_release_witness :
    baseCrawl 2 2000 c8Oracle =
      { result := Except.ok [], attempts := 2, delays := [2000], launched := 2, closed := 2 } := by
  have h := (c8_amended_retry_backoff_release 2 2000 c8Oracle [] 1 "x").2.2.1
    (by omega)
    (fun j hj => by
      cases j with
      | zero => exact ⟨"page.goto: Timeout 60000ms exceeded", rfl⟩
      | succ j => exact absurd hj (by omega))
    rfl
  rw [h]
  rfl

/-! ## C7: per-item failure isolation of the direct-fetch crawl -/

theorem vstakingFetchRaw_spec (oracle : String → FetchOutcome) (now : Int) :
    ∀ tokens : List String,
      ∃ data : List Doc,
        mapExcept (vstakingToSnapshot now) (vstakingFetchRaw oracle tokens) = Except.ok data ∧
        data.map (fun d => d.assetSymbol) = tokens.filter (fun t => goodOutcome (oracle t)) := by
  intro tokens
  induction tokens with
  | nil => exact ⟨[], rfl, rfl⟩
  | cons t rest ih =>
    obtain ⟨data, hmap, hsym⟩ := ih
    cases hor : oracle t with
    | fetchError msg =>
      exact ⟨data, by simp [vstakingFetchRaw, hor, hmap],
        by simp [List.filter_cons, hor, goodOutcome, hsym]⟩
    | httpError s =>
      exact ⟨data, by simp [vstakingFetchRaw, hor, hmap],
        by simp [List.filter_cons, hor, goodOutcome, hsym]⟩
    | ok res =>
      cases res with
      | none =>
        exact ⟨data, by simp [vstakingFetchRaw, hor, hmap],
          by simp [List.filter_cons, hor, goodOutcome, hsym]⟩
      | some l =>
        cases l with
        | nil =>
          exact ⟨data, by simp [vstakingFetchRaw, hor, hmap],
            by simp [List.filter_cons, hor, goodOutcome, hsym]⟩
        | cons x xs =>
          cases hl : (List.insertionSort dateAsc (x :: xs)).getLast? with
          | none =>
            exfalso
            rw [List.getLast?_eq_none_iff] at hl
            have hperm := List.perm_insertionSort dateAsc (x :: xs)
            rw [hl] at hperm
            simp at hperm
          | some latest =>
            have hsnap : vstakingToSnapshot now
                { token := t, history := List.insertionSort dateAsc (x :: xs) } =
                Except.ok { protocol := "bifrost", network := "polkadot", poolType := "vstaking"
                            assetSymbol := t, supplyApy := some latest.avg
                            dataTimestamp := latest.date, crawledAt := some now } := by
              simp only [vstakingToSnapshot]
              rw [hl]
            have hfetch : vstakingFetchRaw oracle (t :: rest) =
                { token := t, history := List.insertionSort dateAsc (x :: xs) } ::
                  vstakingFetchRaw oracle rest := by
              simp only [vstakingFetchRaw, hor]
              rw [if_pos (by simp)]
            refine ⟨{ protocol := "bifrost", network := "polkadot", poolType := "vstaking"
                      assetSymbol := t, supplyApy := some latest.avg
                      dataTimestamp := latest.date, crawledAt := some now } :: data, ?_, ?_⟩
            · rw [hfetch]
              simp only [mapExcept]
              rw [hsnap, hmap]
            · simp [List.filter_cons, hor, goodOutcome, hsym]

/-- C7.  In the direct-fetch crawl, a single-item fetch failure (thrown fetch,
non-2xx status, or missing/empty body) only removes that item: `crawl()`
still succeeds and returns the normalized snapshots of exactly the surviving
tokens, in order, with `itemsFound` equal to their count.  `crawl()` throws
exactly when the `fetchRaw`-level call itself throws (here: the token-config
lookup), which is rethrown unchanged. -/
theorem c7_direct_fetch_item_isolation (oracle : String → FetchOutcome)
    (tokens : List String) (now : Int) (e : String) :
    (∃ r, vstakingCrawl (Except.ok tokens) oracle now = Except.ok r ∧
       r.data.map (fun d => d.assetSymbol) = tokens.filter (fun t => goodOutcome (oracle t)) ∧
       r.itemsFound = (tokens.filter (fun t => goodOutcome (oracle t))).length) ∧
    vstakingCrawl (Except.error e) oracle now = Except.error e := by
  constructor
  · obtain ⟨data, hmap, hsym⟩ := vstakingFetchRaw_spec oracle now tokens
    refine ⟨{ protocol := "bifrost", network := "polkadot", poolType := "vstaking"
              duration := 0, itemsFound := data.length, data := data }, ?_, ?_, ?_⟩
    · simp [vstakingCrawl, hmap]
    · exact hsym
    · show data.length = (tokens.filter (fun t => goodOutcome (oracle t))).length
      rw [← hsym, List.length_map]
  · rfl

/-! ## C4: sort/limit contract of the latest() read path -/

/-- A minimal summary with a given rate, for the spec's worked example. -/
def c4Pool (sym : String) (apy : Option Int) : PoolSummary :=
  { protocol := "hydration", network := "hydration", poolType := "dex"
    assetSymbol := sym, totalApy := apy, dataTimestamp := 0 }

/-- The spec's five records with rates `[5, null, 10, 3, 8]`. -/
def c4Pools : List PoolSummary :=
  [c4Pool "A" (some 5), c4Pool "B" none, c4Pool "C" (some 10),
   c4Pool "D" (some 3), c4Pool "E" (some 8)]

/-- C4.  `applySortAndLimit` sorts descending by the selected field (default
`totalApy`) with missing values lowest, truncates to the caller limit
(default 50), and the validated limit always lies in `[1, 200]`; over the
example rates `[5, null, 10, 3, 8]` with limit 3 the result is exactly
`[10, 8, 5]`. -/
theorem c4_sort_limit_contract (pools : List PoolSummary) (f : PoolFilterDto) :
    (limitOk f.limit = true → 1 ≤ f.limit.getD 50 ∧ f.limit.getD 50 ≤ 200) ∧
    List.Sorted (keyDesc (f.sortBy.getD SortBy.totalApy)) (applySortAndLimit pools f) ∧
    (applySortAndLimit pools f).length = min (f.limit.getD 50) pools.length ∧
    (∀ p ∈ applySortAndLimit pools f, p ∈ pools) ∧
    (applySortAndLimit c4Pools { limit := some 3 }).map (fun p => p.totalApy) =
      [some 10, some 8, some 5] := by
  refine ⟨?_, ?_, ?_, ?_, by decide⟩
  · intro h
    cases hl : f.limit with
    | none => exact ⟨by decide, by decide⟩
    | some n =>
      rw [hl] at h
      simp only [limitOk, Bool.and_eq_true, decide_eq_true_eq] at h
      simpa using h
  · exact List.Pairwise.sublist (List.take_sublist _ _)
      (List.sorted_insertionSort (keyDesc (f.sortBy.getD SortBy.totalApy)) pools)
  · show ((List.insertionSort (keyDesc (f.sortBy.getD SortBy.totalApy)) pools).take
      (f.limit.getD 50)).length = _
    rw [List.length_take,
      (List.perm_insertionSort (keyDesc (f.sortBy.getD SortBy.totalApy)) pools).length_eq]
  · intro p hp
    exact (List.perm_insertionSort (keyDesc (f.sortBy.getD SortBy.totalApy)) pools).subset
      (List.take_subset _ _ hp)

/-- Witness for C4: the validated limit 3 is within the `[1, 200]` bound. -/
theorem c4_sort_limit_contract_witness :
    1 ≤ (({ limit := some 3 } : PoolFilterDto).limit.getD 50) ∧
    (({ limit := some 3 } : PoolFilterDto).limit.getD 50) ≤ 200 :=
  (c4_sort_limit_contract c4Pools { limit := some 3 }).1 (by decide)

/-! ## C5: history() range query -/

theorem history_flatten_perm (f : PoolFilterDto) (repos : List (List Doc)) :
    ((repos.map fun repo => (fetchHistorySnapshots repo f).map toSummary).flatten).Perm
      (((repos.flatten).filter (matchesHistory f)).map toSummary) := by
  induction repos with
  | nil => exact List.Perm.refl []
  | cons repo rest ih =>
    simp only [List.map_cons, List.flatten_cons, List.filter_append, List.map_append]
    exact List.Perm.append ((List.perm_insertionSort tsAsc _).map toSummary) ih

/-- C5.  `history()` returns exactly the records whose `dataTimestamp` lies in
the inclusive `[from, to]` range and that match the remaining filters — as a
multiset (no dedup, no drop, no limit) — sorted ascending by `dataTimestamp`. -/
theorem c5_history_range (st : Stores) (f : PoolFilterDto) (a b : Int)
    (hfrom : f.fromDate = some a) (hto : f.toDate = some b) :
    (getPoolsHistory st f).Perm
      ((((selectSources f.protocol st).flatten).filter
          (fun d => matchesWhere f d && decide (a ≤ d.dataTimestamp) &&
            decide (d.dataTimestamp ≤ b))).map toSummary) ∧
    List.Sorted tsAscS (getPoolsHistory st f) ∧
    (∀ s, s ∈ getPoolsHistory st f ↔
       ∃ d, d ∈ (selectSources f.protocol st).flatten ∧ matchesWhere f d = true ∧
         a ≤ d.dataTimestamp ∧ d.dataTimestamp ≤ b ∧ s = toSummary d) := by
  have hpred : matchesHistory f = fun d =>
      matchesWhere f d && decide (a ≤ d.dataTimestamp) && decide (d.dataTimestamp ≤ b) := by
    funext d
    simp [matchesHistory, hfrom, hto]
  have hperm : (getPoolsHistory st f).Perm
      ((((selectSources f.protocol st).flatten).filter (matchesHistory f)).map toSummary) :=
    (List.perm_insertionSort tsAscS _).trans
      (history_flatten_perm f (selectSources f.protocol st))
  rw [hpred] at hperm
  refine ⟨hperm, List.sorted_insertionSort tsAscS _, ?_⟩
  intro s
  rw [hperm.mem_iff]
  simp only [List.mem_map, List.mem_filter, Bool.and_eq_true, decide_eq_true_eq]
  constructor
  · rintro ⟨d, ⟨hd, ⟨hw, hge⟩, hle⟩, rfl⟩
    exact ⟨d, hd, hw, hge, hle, rfl⟩
  · rintro ⟨d, hd, hw, hge, hle, rfl⟩
    exact ⟨d, ⟨hd, ⟨hw, hge⟩, hle⟩, rfl⟩

/-- History fixture document at an integer day timestamp. -/
def c5Doc (i : Nat) : Doc :=
  { protocol := "bifrost", network := "polkadot", poolType := "vstaking"
    assetSymbol := "VDOT", dataTimestamp := (i : Int) }

/-- Three Bifrost history points and one Moonwell point. -/
def c5Stores : Stores :=
  { bifrost := [c5Doc 1, c5Doc 5, c5Doc 9], moonwell := [c5Doc 4], hydration := [] }

/-- A `[3, 7]` range filter. -/
def c5Filter : PoolFilterDto := { fromDate := some 3, toDate := some 7 }

/-- Witness for C5 at the concrete store and `[3, 7]` range. -/
theorem c5_history_range_witness :
    List.Sorted tsAscS (getPoolsHistory c5Stores c5Filter) :=
  (c5_history_range c5Stores c5Filter 3 7 rfl rfl).2.1

/-! ## C10: the 1500-document read window of latest() -/

theorem dedupFirstAux_subset (l : List Doc) :
    ∀ seen, ∀ x ∈ dedupFirstAux seen l, x ∈ l := by
  induction l with
  | nil => intro seen x hx; cases hx
  | cons d rest ih =>
    intro seen x hx
    rw [dedupFirstAux] at hx
    by_cases hmem : latestKey d ∈ seen
    · rw [if_pos hmem] at hx
      exact List.mem_cons_of_mem d (ih seen x hx)
    · rw [if_neg hmem] at hx
      rcases List.mem_cons.mp hx with rfl | hx2
      · exact List.mem_cons_self x rest
      · exact List.mem_cons_of_mem d (ih _ x hx2)

/-- C10.  `fetchLatestSnapshots` is a function of the 1500-document window
alone (the filtered collection sorted by `dataTimestamp DESC`, truncated to
1500 documents): equal windows give equal results, and any key absent from
every selected collection's window is absent from the `latest()` response,
even if matching records exist in the store. -/
theorem c10_latest_window_bound (st : Stores) (f : PoolFilterDto) (k : String)
    (h : ∀ repo ∈ selectSources f.protocol st, ∀ d ∈ latestWindow repo f, latestKey d ≠ k) :
    (∀ store1 store2 : List Doc, latestWindow store1 f = latestWindow store2 f →
       fetchLatestSnapshots store1 f = fetchLatestSnapshots store2 f) ∧
    (∀ p ∈ getAllPools st f,
       p.protocol ++ ":" ++ p.poolType ++ ":" ++ p.assetSymbol ≠ k) := by
  constructor
  · intro s1 s2 he
    unfold fetchLatestSnapshots
    rw [he]
  · intro p hp
    simp only [getAllPools, applySortAndLimit] at hp
    have hp2 : p ∈ ((selectSources f.protocol st).map fun repo =>
        (fetchLatestSnapshots repo f).map toSummary).flatten :=
      (List.perm_insertionSort _ _).subset (List.take_subset _ _ hp)
    rw [List.mem_flatten] at hp2
    obtain ⟨l, hl, hpl⟩ := hp2
    rw [List.mem_map] at hl
    obtain ⟨repo, hrepo, rfl⟩ := hl
    rw [List.mem_map] at hpl
    obtain ⟨d, hd, rfl⟩ := hpl
    have hdw : d ∈ latestWindow repo f := dedupFirstAux_subset _ [] d hd
    have hk := h repo hrepo d hdw
    simpa [latestKey, toSummary] using hk

/-- A lone stored document whose key differs from the probed key. -/
def c10Doc : Doc :=
  { protocol := "bifrost", network := "polkadot", poolType := "vstaking"
    assetSymbol := "VDOT", totalApy := some 5, dataTimestamp := 100 }

/-- A store holding only that document. -/
def c10Stores : Stores := { bifrost := [c10Doc], moonwell := [], hydration := [] }

/-- Witness for C10 at a concrete store: the returned summary's key differs
from the probed key, whose window membership hypothesis holds by evaluation. -/
theorem c10_latest_window_bound_witness :
    (toSummary c10Doc).protocol ++ ":" ++ (toSummary c10Doc).poolType ++ ":" ++
      (toSummary c10Doc).assetSymbol ≠ "acala:dex:XYZ" :=
  (c10_latest_window_bound c10Stores ({} : PoolFilterDto) "acala:dex:XYZ" (by decide)).2
    (toSummary c10Doc) (by decide)

/-! ## C3: latest-dedup -/

/-- Filler documents with 50 distinct keys and rising rates. -/
def c3Filler (i : Nat) : Doc :=
  { protocol := "bifrost", network := "polkadot", poolType := "vstaking"
    assetSymbol := "F" ++ toString i, totalApy := some ((i : Int) + 1)
    dataTimestamp := (i : Int) }

/-- A 51st key holding the store's single, newest record — with the lowest
rate. -/
def c3Victim : Doc :=
  { protocol := "bifrost", network := "polkadot", poolType := "vstaking"
    assetSymbol := "VICT", totalApy := some 0, dataTimestamp := 1000 }

/-- A store of 51 records over 51 distinct keys in one collection. -/
def c3Stores : Stores :=
  { bifrost := (List.range 50).map c3Filler ++ [c3Victim], moonwell := [], hydration := [] }

/-- Counterexample to C3 as stated: the store holds exactly one record
(pairwise-distinct `observedAt` trivially, and it is the newest document of
its collection, so the 1500-window keeps it) for the key
`(polkadot, vstaking, VICT)`, yet `getAllPools` with the default filter
returns **zero** records for that key — the deduplicated result has 51
entries, the victim sorts last on `totalApy`, and the default limit 50
truncates it away. -/
theorem c3_counterexample :
    ((c3Stores.bifrost.filter fun d => d.assetSymbol == "VICT").length = 1 ∧
     List.Pairwise (fun d e => d.dataTimestamp ≠ e.dataTimestamp) c3Stores.bifrost) ∧
    ((getAllPools c3Stores ({} : PoolFilterDto)).filter
        fun s => s.assetSymbol == "VICT").length = 0 := by
  decide

theorem dedupFirstAux_all_seen (l : List Doc) :
    ∀ seen, (∀ e ∈ l, latestKey e ∈ seen) → dedupFirstAux seen l = [] := by
  induction l with
  | nil => intro seen _; rfl
  | cons d rest ih =>
    intro seen hall
    rw [dedupFirstAux, if_pos (hall d (List.mem_cons_self d rest))]
    exact ih seen (fun e he => hall e (List.mem_cons_of_mem d he))

/-- C3 (amended).  Provided the key's records are not cut off by the
1500-document window or by the result limit — in particular whenever the
collection holds only records of that one key — `getAllPools` returns exactly
one record for the key: the one with maximal `observedAt`. -/
theorem c3_amended_latest_dedup (docs : List Doc) (p n pt a : String)
    (hne : docs ≠ [])
    (hkey : ∀ d ∈ docs, d.protocol = p ∧ d.network = n ∧ d.poolType = pt ∧ d.assetSymbol = a)
    (hdist : docs.Pairwise fun d e => d.dataTimestamp ≠ e.dataTimestamp) :
    ∃ dmax, dmax ∈ docs ∧ (∀ d ∈ docs, d.dataTimestamp ≤ dmax.dataTimestamp) ∧
      getAllPools { bifrost := docs, moonwell := [], hydration := [] } ({} : PoolFilterDto) =
        [toSummary dmax] := by
  obtain ⟨x, rest, hs⟩ : ∃ x rest, List.insertionSort tsDesc docs = x :: rest := by
    cases h2 : List.insertionSort tsDesc docs with
    | nil =>
      exfalso
      have hperm := List.perm_insertionSort tsDesc docs
      rw [h2] at hperm
      exact hne (List.perm_nil.mp hperm.symm)
    | cons y ys => exact ⟨y, ys, rfl⟩
  have hperm := List.perm_insertionSort tsDesc docs
  rw [hs] at hperm
  have hsorted := List.sorted_insertionSort tsDesc docs
  rw [hs] at hsorted
  have hxmem : x ∈ docs := hperm.subset (List.mem_cons_self x rest)
  refine ⟨x, hxmem, ?_, ?_⟩
  · intro d hd
    rcases List.mem_cons.mp (hperm.mem_iff.mpr hd) with rfl | hdr
    · exact le_refl _
    · exact List.rel_of_sorted_cons hsorted d hdr
  · have hfilter : docs.filter (matchesWhere ({} : PoolFilterDto)) = docs :=
      List.filter_eq_self.mpr (fun d _ => rfl)
    have hwindow : latestWindow docs ({} : PoolFilterDto) = x :: List.take 1499 rest := by
      unfold latestWindow
      rw [hfilter, hs, show (1500 : Nat) = 1499 + 1 from rfl, List.take_succ_cons]
    have hkeys : ∀ e ∈ List.take 1499 rest, latestKey e = latestKey x := by
      intro e he
      have he2 : e ∈ docs :=
        hperm.subset (List.mem_cons_of_mem x (List.take_subset _ _ he))
      obtain ⟨hp1, _, hp3, hp4⟩ := hkey e he2
      obtain ⟨hq1, _, hq3, hq4⟩ := hkey x hxmem
      simp [latestKey, hp1, hp3, hp4, hq1, hq3, hq4]
    have hfetch : fetchLatestSnapshots docs ({} : PoolFilterDto) = [x] := by
      unfold fetchLatestSnapshots dedupFirst
      rw [hwindow, dedupFirstAux, if_neg (List.not_mem_nil _)]
      congr 1
      exact dedupFirstAux_all_seen _ _
        (fun e he => by rw [hkeys e he]; exact List.mem_cons_self _ _)
    have hempty : fetchLatestSnapshots [] ({} : PoolFilterDto) = [] := rfl
    have hsel : selectSources ({} : PoolFilterDto).protocol
        { bifrost := docs, moonwell := [], hydration := [] } = [docs, [], []] := rfl
    unfold getAllPools
    rw [hsel]
    simp only [List.map_cons, List.map_nil, List.flatten_cons, List.flatten_nil]
    rw [hfetch, hempty]
    simp only [List.map_cons, List.map_nil, List.append_nil]
    rfl

/-- Older record of the key. -/
def c3W1 : Doc :=
  { protocol := "bifrost", network := "polkadot", poolType := "vstaking"
    assetSymbol := "VDOT", supplyApy := some 10, dataTimestamp := 100 }

/-- Newer record of the same key. -/
def c3W2 : Doc :=
  { protocol := "bifrost", network := "polkadot", poolType := "vstaking"
    assetSymbol := "VDOT", supplyApy := some 11, dataTimestamp := 200 }

/-- Witness for the amended C3: a two-record single-key store yields exactly
one latest record. -/
theorem c3_amended_latest_dedup_witness :
    (getAllPools { bifrost := [c3W1, c3W2], moonwell := [], hydration := [] }
      ({} : PoolFilterDto)).length = 1 := by
  obtain ⟨dmax, -, -, heq⟩ := c3_amended_latest_dedup [c3W1, c3W2]
    "bifrost" "polkadot" "vstaking" "VDOT" (by decide) (by decide) (by decide)
  rw [heq]
  rfl

end ParaYield
